import Mathlib

/-!
Verification of the DrumExtract orchestration core (src/main.py, src/pipeline.py)
against its specification.

The Python code is shallowly embedded:

* the filesystem is an association list from paths (component lists) to
  entries (directories, or files carrying a byte size and their leading bytes);
* the external collaborators (Spleeter, Basic-Pitch) are opaque: each call is
  parameterised by an outcome saying whether the call raised and which output
  files it produced, exactly the two ways the orchestration code can observe
  them;
* the WebSocket channel of `process_audio` is parameterised by the number of
  frames the client accepts before a send raises (`cap`); the async generator
  of `DrumPipeline.process` is embedded by interleaving its stage calls with
  the sends in the order the `async for` loop drives them;
* `datetime` instants are integers (seconds); exceptions are `Except`.
-/

set_option autoImplicit false

namespace DrumExtract

/-- Equality of embedded call results is decidable (used to evaluate the
theorems below on concrete inputs). -/
instance {ε α : Type} [DecidableEq ε] [DecidableEq α] : DecidableEq (Except ε α)
  | .error e, .error f =>
    if h : e = f then .isTrue (by rw [h]) else .isFalse (fun hh => h (by injection hh))
  | .ok x, .ok y =>
    if h : x = y then .isTrue (by rw [h]) else .isFalse (fun hh => h (by injection hh))
  | .error _, .ok _ => .isFalse (fun hh => Except.noConfusion hh)
  | .ok _, .error _ => .isFalse (fun hh => Except.noConfusion hh)

/-! ## Data model (src/main.py models, src/pipeline.py ProcessingStage) -/

/-- `ProcessingStage` from src/pipeline.py. -/
inductive Stage where
  | separation
  | midi_conversion
  | validation
  | complete
  deriving DecidableEq, Repr

/-- Position of a stage in the pipeline's fixed order. -/
def Stage.idx : Stage → Nat
  | .separation => 0
  | .midi_conversion => 1
  | .validation => 2
  | .complete => 3

/-- One progress dictionary yielded by `DrumPipeline.process`. -/
structure ProgressEvent where
  stage : Stage
  percent : Nat
  message : String
  deriving DecidableEq, Repr

/-- The four task statuses of the registry (src/main.py `TaskStatus`). -/
inductive Status where
  | pending
  | processing
  | complete
  | failed
  deriving DecidableEq, Repr

/-! ## Filesystem model

A path is its list of components (no leading slash stored); the store maps
paths to entries. Writing a path replaces any previous entry at that path,
like the `open(..., "wb")` / `rename` calls in the source. -/

abbrev Path := List String

/-- Render a path the way `str(pathlib.Path(...))` does in the source's
error messages. -/
def pathStr (p : Path) : String :=
  "/" ++ String.intercalate "/" p

/-- A directory, or a file with its `st_size` and its leading bytes (the
source never reads more than the first 4 bytes of a file). -/
inductive EntryData where
  | dir
  | file (size : Nat) (head : List UInt8)
  deriving DecidableEq, Repr

abbrev FS := List (Path × EntryData)

/-- `Path.exists` / reading an entry: first binding for the path. -/
def fsFind (fs : FS) (p : Path) : Option EntryData :=
  (fs.find? (fun e => decide (e.1 = p))).map (fun e => e.2)

/-- `unlink` (and the implicit overwrite before a write): drop every binding
at the path. -/
def fsErase (fs : FS) (p : Path) : FS :=
  fs.filter (fun e => decide (e.1 ≠ p))

/-- Create or overwrite the entry at a path (`mkdir`, `open(..., "wb")`,
the target of `rename`). -/
def fsSet (fs : FS) (p : Path) (d : EntryData) : FS :=
  (p, d) :: fsErase fs p

/-- `shutil.rmtree`: remove the directory and everything below it. -/
def fsRmtree (fs : FS) (p : Path) : FS :=
  fs.filter (fun e => decide (¬ p <+: e.1))

/-- `pathlib.PurePath.stem` of a single component: the component without its
final suffix (the suffix must not start the name and must be proper). -/
def stemOf (s : String) : String :=
  let cs := s.toList
  let k := (cs.reverse.takeWhile (fun c => c != '.')).length
  if k < cs.length ∧ 0 < k ∧ 0 < cs.length - k - 1 then
    String.mk (cs.take (cs.length - k - 1))
  else s

/-- `pathlib.PurePath.suffix` of a single component (includes the dot). -/
def suffixOf (s : String) : String :=
  let cs := s.toList
  let k := (cs.reverse.takeWhile (fun c => c != '.')).length
  if k < cs.length ∧ 0 < k ∧ 0 < cs.length - k - 1 then
    String.mk (cs.drop (cs.length - k - 1))
  else ""

/-- Final component of a path. -/
def lastComp (p : Path) : String := p.getLastD ""

/-! ## Fixed locations (src/main.py configuration) -/

def uploadDir : Path := ["tmp", "drumextract", "uploads"]

def outputDir : Path := ["tmp", "drumextract", "outputs"]

/-- `OUTPUT_DIR / f"{task_id}_stems"`, the separation scratch directory. -/
def stemsTempDir (taskId : String) : Path := outputDir ++ [taskId ++ "_stems"]

/-- The subfolder Spleeter creates inside the scratch directory, named after
the input file's stem. -/
def stemFolderPath (taskId audioStem : String) : Path :=
  stemsTempDir taskId ++ [audioStem]

/-- `stem_folder / "drums.wav"`, where Spleeter leaves the drum stem. -/
def drumSourcePath (taskId audioStem : String) : Path :=
  stemFolderPath taskId audioStem ++ ["drums.wav"]

/-- `OUTPUT_DIR / f"{task_id}_drums.wav"`, the normalized separated-audio path. -/
def drumFinalPath (taskId : String) : Path := outputDir ++ [taskId ++ "_drums.wav"]

/-- `OUTPUT_DIR / f"{task_id}_drums.mid"`, the normalized MIDI path. -/
def midiOutputPath (taskId : String) : Path := outputDir ++ [taskId ++ "_drums.mid"]

/-! ## Stage runners (src/pipeline.py) -/

/-- How one `separator.separate_to_file` call can be observed by the caller:
it raised, or it ran and produced (or did not produce) a `drums.wav` with the
given size and leading bytes. -/
inductive SepOutcome where
  | raises (msg : String)
  | runs (drums : Option (Nat × List UInt8))
  deriving DecidableEq, Repr

/-- `DrumPipeline._separate_drums`: make the scratch directory, run Spleeter,
require `drums.wav`, rename it to the task-scoped path, remove the scratch
directory, return the normalized path. The `rmtree` happens only on the
success path, as in the source. -/
def separate_drums (fs : FS) (taskId : String) (audioPath : Path) (oc : SepOutcome) :
    FS × Except String Path :=
  let temp := stemsTempDir taskId
  let fs1 := fsSet fs temp .dir
  match oc with
  | .raises msg => (fs1, .error msg)
  | .runs drums =>
    let stem := stemOf (lastComp audioPath)
    let folder := stemFolderPath taskId stem
    let src := drumSourcePath taskId stem
    let fs2 := fsSet fs1 folder .dir
    let fs3 := match drums with
      | some d => fsSet fs2 src (.file d.1 d.2)
      | none => fs2
    match fsFind fs3 src with
    | none => (fs3, .error ("Spleeter did not generate drums.wav at " ++ pathStr src))
    | some d =>
      let fin := drumFinalPath taskId
      let fs4 := fsSet (fsErase fs3 src) fin d
      (fsRmtree fs4 temp, .ok fin)

/-- How one `predict_and_save` call can be observed: it raised, or it ran and
produced (or did not produce) the `*_basic_pitch.mid` file. -/
inductive MidiOutcome where
  | raises (msg : String)
  | runs (midi : Option (Nat × List UInt8))
  deriving DecidableEq, Repr

/-- `DrumPipeline._convert_to_midi`: run Basic-Pitch, require the generated
`{stem}_basic_pitch.mid`, rename it to the task-scoped `.mid` path. -/
def convert_to_midi (fs : FS) (taskId : String) (drumPath : Path) (oc : MidiOutcome) :
    FS × Except String Path :=
  let midiOut := midiOutputPath taskId
  match oc with
  | .raises msg => (fs, .error msg)
  | .runs midi =>
    let generated := outputDir ++ [stemOf (lastComp drumPath) ++ "_basic_pitch.mid"]
    let fs1 := match midi with
      | some d => fsSet fs generated (.file d.1 d.2)
      | none => fs
    match fsFind fs1 generated with
    | none => (fs1, .error ("Basic-Pitch did not generate MIDI at " ++ pathStr generated))
    | some d => (fsSet (fsErase fs1 generated) midiOut d, .ok midiOut)

/-- `st_size` of an entry. Directory metadata is schematic (one block); the
validation theorems are stated for file entries, the only case the pipeline
produces. -/
def entrySize : EntryData → Nat
  | .dir => 4096
  | .file n _ => n

/-- `f.read(4)` on an entry opened in binary mode. -/
def readHead4 : EntryData → List UInt8
  | .dir => []
  | .file _ h => h.take 4

/-- The 4-byte standard MIDI file magic `b'MThd'`. -/
def MThd : List UInt8 := [77, 84, 104, 100]

/-- `DrumPipeline._validate_outputs`: existence and minimum-size checks on the
separated audio and the MIDI file, then the MIDI header magic. -/
def validate_outputs (fs : FS) (drumPath midiPath : Path) : Except String Unit :=
  match fsFind fs drumPath with
  | none => .error ("Drum audio not found: " ++ pathStr drumPath)
  | some dd =>
    if entrySize dd < 1000 then .error ("Drum audio file too small: " ++ pathStr drumPath)
    else
      match fsFind fs midiPath with
      | none => .error ("MIDI file not found: " ++ pathStr midiPath)
      | some md =>
        if entrySize md < 100 then .error ("MIDI file too small: " ++ pathStr midiPath)
        else if readHead4 md ≠ MThd then
          .error ("Invalid MIDI file format: " ++ pathStr midiPath)
        else .ok ()

/-! ## The pipeline generator (DrumPipeline.process), consumed to exhaustion -/

def sepEntryEv : ProgressEvent := ⟨.separation, 0, "Initializing Spleeter engine..."⟩
def sepExitEv : ProgressEvent := ⟨.separation, 100, "Drum stem isolated successfully"⟩
def midiEntryEv : ProgressEvent := ⟨.midi_conversion, 0, "Analyzing drum transients..."⟩
def midiExitEv : ProgressEvent := ⟨.midi_conversion, 100, "MIDI extraction complete"⟩
def valEntryEv : ProgressEvent := ⟨.validation, 0, "Validating output files..."⟩
def valExitEv : ProgressEvent := ⟨.validation, 100, "All outputs validated"⟩
def completeEv : ProgressEvent := ⟨.complete, 100, "Processing complete - ready for download"⟩

/-- Result of driving `DrumPipeline.process` to exhaustion: the final
filesystem, the progress events it yielded, and the exception that ended it
(if any). -/
structure PipeRun where
  fs : FS
  events : List ProgressEvent
  err : Option String
  deriving DecidableEq, Repr

/-- `DrumPipeline.process(task_id, audio_path)` with every yielded event
collected: each stage's entry event is yielded before its stage call, its
exit event after; a raising stage ends the sequence. -/
def pipelineProcess (fs : FS) (taskId : String) (audioPath : Path)
    (sep : SepOutcome) (midi : MidiOutcome) : PipeRun :=
  match separate_drums fs taskId audioPath sep with
  | (fs1, .error msg) => ⟨fs1, [sepEntryEv], some msg⟩
  | (fs1, .ok drum) =>
    match convert_to_midi fs1 taskId drum midi with
    | (fs2, .error msg) => ⟨fs2, [sepEntryEv, sepExitEv, midiEntryEv], some msg⟩
    | (fs2, .ok midiP) =>
      match validate_outputs fs2 drum midiP with
      | .error msg =>
        ⟨fs2, [sepEntryEv, sepExitEv, midiEntryEv, midiExitEv, valEntryEv], some msg⟩
      | .ok _ =>
        ⟨fs2, [sepEntryEv, sepExitEv, midiEntryEv, midiExitEv, valEntryEv, valExitEv,
          completeEv], none⟩

/-! ## Task registry and endpoints (src/main.py) -/

/-- One entry of `task_registry`. -/
structure TaskRecord where
  status : Status
  upload_path : Path
  progress : Option ProgressEvent := none
  midi_path : Option Path := none
  drum_path : Option Path := none
  error : Option String := none
  deriving DecidableEq, Repr

abbrev Registry := List (String × TaskRecord)

def regFind (reg : Registry) (id : String) : Option TaskRecord :=
  (reg.find? (fun e => decide (e.1 = id))).map (fun e => e.2)

/-- `task_registry[id] = rec` (dict assignment). -/
def regSet (reg : Registry) (id : String) (rec : TaskRecord) : Registry :=
  (id, rec) :: reg.filter (fun e => decide (e.1 ≠ id))

/-- Frames the WebSocket endpoint sends. -/
inductive Frame where
  | invalidTask
  | conflict
  | progress (ev : ProgressEvent)
  | completeFrame (taskId : String)
  | errorFrame (details : String)
  deriving DecidableEq, Repr

/-- The exception text a send raises once the client has gone away. -/
def disconnectMsg : String := "WebSocket send failed: client disconnected"

/-- The observable outcome of one `process_audio` WebSocket handling: final
filesystem, final task record, the successive values assigned to the record's
`status` field, the number of events pulled from the pipeline generator, and
the frames actually delivered to the client. -/
structure WSRun where
  fs : FS
  task : TaskRecord
  writes : List Status
  consumed : Nat
  frames : List Frame
  deriving DecidableEq, Repr

/-- The `except` clause of `process_audio`: mark the task failed, record the
exception text, and try to send one terminal error frame (which itself only
goes through while the client still accepts sends). -/
def failRun (fs : FS) (r : TaskRecord) (msg : String) (consumed : Nat)
    (sent : List ProgressEvent) (cap : Nat) : WSRun :=
  ⟨fs, { r with status := .failed, error := some msg }, [.processing, .failed], consumed,
    sent.map Frame.progress ++ (if sent.length < cap then [Frame.errorFrame msg] else [])⟩

/-- The `/ws/process/{task_id}` handler body after registry lookup, driving
the pipeline generator. `cap` is how many frames the client accepts before a
send raises; each progress event is pulled, sent, and mirrored into the
record, in the source's order (the stage call runs while the next event is
being pulled). A task already `processing` is rejected with a conflict frame
and nothing else happens. -/
def process_audio (fs : FS) (rec : TaskRecord) (cap : Nat) (taskId : String)
    (sep : SepOutcome) (midi : MidiOutcome) : WSRun :=
  if rec.status = .processing then
    ⟨fs, rec, [], 0, [.conflict]⟩
  else
    let r0 := { rec with status := Status.processing }
    if cap < 1 then failRun fs r0 disconnectMsg 1 [] cap
    else
      let r1 := { r0 with progress := some sepEntryEv }
      match separate_drums fs taskId rec.upload_path sep with
      | (fs1, .error msg) => failRun fs1 r1 msg 1 [sepEntryEv] cap
      | (fs1, .ok drum) =>
        if cap < 2 then failRun fs1 r1 disconnectMsg 2 [sepEntryEv] cap
        else
          let r2 := { r1 with progress := some sepExitEv }
          if cap < 3 then failRun fs1 r2 disconnectMsg 3 [sepEntryEv, sepExitEv] cap
          else
            let r3 := { r2 with progress := some midiEntryEv }
            match convert_to_midi fs1 taskId drum midi with
            | (fs2, .error msg) =>
              failRun fs2 r3 msg 3 [sepEntryEv, sepExitEv, midiEntryEv] cap
            | (fs2, .ok midiP) =>
              if cap < 4 then
                failRun fs2 r3 disconnectMsg 4 [sepEntryEv, sepExitEv, midiEntryEv] cap
              else
                let r4 := { r3 with progress := some midiExitEv }
                if cap < 5 then
                  failRun fs2 r4 disconnectMsg 5
                    [sepEntryEv, sepExitEv, midiEntryEv, midiExitEv] cap
                else
                  let r5 := { r4 with progress := some valEntryEv }
                  match validate_outputs fs2 drum midiP with
                  | .error msg =>
                    failRun fs2 r5 msg 5
                      [sepEntryEv, sepExitEv, midiEntryEv, midiExitEv, valEntryEv] cap
                  | .ok _ =>
                    if cap < 6 then
                      failRun fs2 r5 disconnectMsg 6
                        [sepEntryEv, sepExitEv, midiEntryEv, midiExitEv, valEntryEv] cap
                    else
                      let r6 := { r5 with progress := some valExitEv }
                      if cap < 7 then
                        failRun fs2 r6 disconnectMsg 7
                          [sepEntryEv, sepExitEv, midiEntryEv, midiExitEv, valEntryEv,
                            valExitEv] cap
                      else
                        let r7 := { r6 with progress := some completeEv }
                        let rc := { r7 with
                                    status := Status.complete,
                                    midi_path := some (midiOutputPath taskId),
                                    drum_path := some (drumFinalPath taskId) }
                        let allFrames := [sepEntryEv, sepExitEv, midiEntryEv, midiExitEv,
                          valEntryEv, valExitEv, completeEv].map Frame.progress
                        if cap < 8 then
                          ⟨fs2, { rc with status := .failed, error := some disconnectMsg },
                            [.processing, .complete, .failed], 7, allFrames⟩
                        else
                          ⟨fs2, rc, [.processing, .complete], 7,
                            allFrames ++ [Frame.completeFrame taskId]⟩

/-- What `/status/{task_id}` returns (a read: the handler never writes the
registry). -/
structure TaskStatusView where
  status : Status
  midi_url : Option String
  drum_url : Option String
  error : Option String
  deriving DecidableEq, Repr

/-- The `/status/{task_id}` handler. -/
def get_status (reg : Registry) (taskId : String) :
    Except (Nat × String) TaskStatusView :=
  match regFind reg taskId with
  | none => .error (404, "Task not found")
  | some t =>
    .ok ⟨t.status,
      if t.status = .complete then some ("/download/midi/" ++ taskId) else none,
      if t.status = .complete then some ("/download/drum/" ++ taskId) else none,
      t.error⟩

/-- The `/download/midi/{task_id}` handler (a read: gated on `complete` and on
the file still existing). -/
def download_midi (fs : FS) (reg : Registry) (taskId : String) :
    Except (Nat × String) Path :=
  match regFind reg taskId with
  | none => .error (404, "Task not found")
  | some t =>
    if t.status ≠ .complete then .error (400, "Processing not complete")
    else
      match t.midi_path with
      | none => .error (404, "MIDI file not found")
      | some p =>
        match fsFind fs p with
        | none => .error (404, "MIDI file not found")
        | some _ => .ok p

/-! ## Upload endpoint (src/main.py upload_audio) -/

def allowedExtensions : List String := [".wav", ".mp3", ".m4a", ".flac"]

/-- `str.lower()` on the extension (character-wise, as Python lowercases the
suffix before membership testing). -/
def lowerStr (s : String) : String := String.mk (s.toList.map Char.toLower)

def maxFileSize : Nat := 100 * 1024 * 1024

/-- How `await file.read()` can be observed: it raised, or it returned a
payload with the given length and bytes. -/
inductive ReadOutcome where
  | raises (msg : String)
  | reads (size : Nat) (bytes : List UInt8)
  deriving DecidableEq, Repr

/-- How the `open`/`write` block can be observed: it raised (leaving an
incomplete file behind or not), or it wrote the file. -/
inductive WriteOutcome where
  | raises (leftover : Bool) (msg : String)
  | writes
  deriving DecidableEq, Repr

structure UploadOut where
  fs : FS
  reg : Registry
  result : Except (Nat × String) String
  deriving DecidableEq, Repr

/-- The `/upload` handler: validate the extension, read the payload, enforce
the size cap, write the file, register the task as `pending`. Any exception
after the extension check is caught, the file (if present) unlinked, and a
500 returned; note the oversize `HTTPException` is itself caught by the
generic handler, as in the source. -/
def upload_audio (fs : FS) (reg : Registry) (filename taskId : String)
    (rd : ReadOutcome) (wr : WriteOutcome) : UploadOut :=
  let ext := lowerStr (suffixOf filename)
  if ext ∉ allowedExtensions then
    ⟨fs, reg, .error (400, "Unsupported file type. Allowed: .wav, .mp3, .m4a, .flac")⟩
  else
    let uploadPath := uploadDir ++ [taskId ++ ext]
    match rd with
    | .raises msg => ⟨fsErase fs uploadPath, reg, .error (500, "Upload failed: " ++ msg)⟩
    | .reads size bytes =>
      if maxFileSize < size then
        ⟨fsErase fs uploadPath, reg,
          .error (500, "Upload failed: 400: File too large. Max size: 100.0MB")⟩
      else
        match wr with
        | .raises leftover msg =>
          let fs1 := if leftover then fsSet fs uploadPath (.file 0 []) else fs
          ⟨fsErase fs1 uploadPath, reg, .error (500, "Upload failed: " ++ msg)⟩
        | .writes =>
          ⟨fsSet fs uploadPath (.file size bytes),
            regSet reg taskId { status := .pending, upload_path := uploadPath },
            .ok ("File uploaded successfully. Connect to /ws/process/" ++ taskId)⟩

/-! ## Retention sweep (src/main.py cleanup_old_files) -/

/-- What kind of entry `iterdir()` listed. -/
inductive EntryKind where
  | efile
  | edir
  deriving DecidableEq, Repr

/-- How one directory entry returned by `iterdir()` behaves during the sweep.
`aliveFor` is the number of filesystem accesses the sweep makes to the entry
(`is_file`/`is_dir`, then `stat`, then `unlink`/`rmtree`) that still find it
on disk; a concurrent deletion makes later accesses miss. -/
structure SweepEntry where
  kind : EntryKind
  mtime : Int
  aliveFor : Nat
  deriving DecidableEq, Repr

def fileGoneMsg : String := "FileNotFoundError"

/-- The body of the `for item in directory.iterdir()` loop: files have their
mtime compared against the cutoff and are unlinked when older (`stat` and
`unlink` raise if the entry vanished); directories are `rmtree`d inside a
`try/except` that swallows everything. Returns whether the sweep deleted the
entry, or the exception that escaped. -/
def sweepEntry (cutoff : Int) (e : SweepEntry) : Except String Bool :=
  if e.kind = .efile ∧ 0 < e.aliveFor then
    if e.aliveFor ≤ 1 then .error fileGoneMsg
    else if e.mtime < cutoff then
      if e.aliveFor ≤ 2 then .error fileGoneMsg
      else .ok true
    else .ok false
  else if e.kind = .edir ∧ 1 < e.aliveFor then
    .ok (decide (2 < e.aliveFor))
  else .ok false

/-- One directory's loop; an escaping exception aborts the whole iteration. -/
def sweepDir (cutoff : Int) : List SweepEntry → Except String (List Bool)
  | [] => .ok []
  | e :: rest =>
    match sweepEntry cutoff e with
    | .error msg => .error msg
    | .ok d => (sweepDir cutoff rest).map (fun ds => d :: ds)

/-- One iteration of `cleanup_old_files`, over the entries `iterdir()` listed
in `UPLOAD_DIR` and `OUTPUT_DIR`, with `cutoff = now - 1 hour`. -/
def cleanup_old_files (now : Int) (uploads outputs : List SweepEntry) :
    Except String (List Bool) :=
  match sweepDir (now - 3600) uploads with
  | .error msg => .error msg
  | .ok a =>
    match sweepDir (now - 3600) outputs with
    | .error msg => .error msg
    | .ok b => .ok (a ++ b)

/-! ## Spec-side predicates

These follow the wording of the specification and the claims, to be compared
with the embedded code. -/

/-- The spec's monotonic status order: pending → processing → {complete|failed},
never reversed. -/
def forwardStep (a b : Status) : Prop :=
  (a = .pending ∧ b = .processing) ∨
  (a = .processing ∧ (b = .complete ∨ b = .failed))

instance : DecidableRel forwardStep := fun a b =>
  inferInstanceAs (Decidable ((a = .pending ∧ b = .processing) ∨
    (a = .processing ∧ (b = .complete ∨ b = .failed))))

/-- The status moves the code actually performs: forward moves, plus the two
deviations the counterexample for C1 exhibits — a subscription to any
non-`processing` task (re)sets it to `processing`, and a `complete` task whose
terminal frame cannot be delivered is re-marked `failed`. -/
def stepAmended (a b : Status) : Prop :=
  (b = .processing ∧ a ≠ .processing) ∨
  (a = .processing ∧ (b = .complete ∨ b = .failed)) ∨
  (a = .complete ∧ b = .failed)

instance : DecidableRel stepAmended := fun a b =>
  inferInstanceAs (Decidable ((b = .processing ∧ a ≠ .processing) ∨
    (a = .processing ∧ (b = .complete ∨ b = .failed)) ∨
    (a = .complete ∧ b = .failed)))

/-- Adjacent progress events move forward: stage order never decreases, and
within one stage the percent never decreases. -/
def evStepOk (a b : ProgressEvent) : Bool :=
  decide (a.stage.idx ≤ b.stage.idx) &&
    (if a.stage = b.stage then decide (a.percent ≤ b.percent) else true)

def pairwiseChainOk : List ProgressEvent → Bool
  | [] => true
  | [_] => true
  | a :: b :: rest => evStepOk a b && pairwiseChainOk (b :: rest)

/-- The three processing stages of the claim. -/
def procStages : List Stage := [.separation, .midi_conversion, .validation]

/-- A stage that appears in the trace was entered with a percent-0 event
(the first event of the stage is at 0). -/
def stageEntryOk (evs : List ProgressEvent) (s : Stage) : Bool :=
  match evs.find? (fun e => decide (e.stage = s)) with
  | none => true
  | some e => decide (e.percent = 0)

/-- A stage that some later stage follows in the trace (so it succeeded)
emitted a percent-100 event. -/
def stageExitOk (evs : List ProgressEvent) (s : Stage) : Bool :=
  if evs.any (fun e => decide (s.idx < e.stage.idx)) then
    evs.any (fun e => decide (e.stage = s) && decide (e.percent = 100))
  else true

/-- The messages of the percent-100 exit events of the processing stages. -/
def exitMessages (evs : List ProgressEvent) : List String :=
  procStages.filterMap (fun s =>
    (evs.find? (fun e => decide (e.stage = s) && decide (e.percent = 100))).map
      (fun e => e.message))

/-- The progress-trace shape claim C6 states: non-decreasing stage order,
non-decreasing percent within a stage, a 0% event on each entered stage's
entry, a 100% event on each succeeded stage's exit, with stage-specific
(pairwise distinct) exit messages. -/
def traceOk (evs : List ProgressEvent) : Bool :=
  pairwiseChainOk evs &&
    procStages.all (fun s => stageEntryOk evs s && stageExitOk evs s) &&
    decide (exitMessages evs).Nodup

/-- The ordered validation checks exactly as claim C7 lists them. -/
inductive ValCheck where
  | drumMissing
  | drumSmall
  | midiMissing
  | midiSmall
  | badMagic
  deriving DecidableEq, Repr

/-- The first failing check of C7's ordered list, from the same observations
the code makes: separated audio exists, exceeds its minimum size, MIDI
exists, exceeds its minimum size, MIDI starts with the `MThd` magic. -/
def firstFailingCheckSpec (fs : FS) (drumPath midiPath : Path) : Option ValCheck :=
  match fsFind fs drumPath with
  | none => some .drumMissing
  | some dd =>
    if entrySize dd < 1000 then some .drumSmall
    else
      match fsFind fs midiPath with
      | none => some .midiMissing
      | some md =>
        if entrySize md < 100 then some .midiSmall
        else if readHead4 md ≠ MThd then some .badMagic
        else none

/-- The file each check is about. -/
def checkTargetPath (c : ValCheck) (drumPath midiPath : Path) : Path :=
  match c with
  | .drumMissing => drumPath
  | .drumSmall => drumPath
  | .midiMissing => midiPath
  | .midiSmall => midiPath
  | .badMagic => midiPath

/-- The reason text with which the code names each failing check. -/
def checkReason (c : ValCheck) : String :=
  match c with
  | .drumMissing => "Drum audio not found: "
  | .drumSmall => "Drum audio file too small: "
  | .midiMissing => "MIDI file not found: "
  | .midiSmall => "MIDI file too small: "
  | .badMagic => "Invalid MIDI file format: "

/-- The entry at a path is a file, or absent — the only shapes the pipeline
hands to validation. -/
def fileOrAbsent (fs : FS) (p : Path) : Bool :=
  match fsFind fs p with
  | some .dir => false
  | _ => true

/-! ## Filesystem lemmas -/

theorem fsFind_fsSet_self (fs : FS) (p : Path) (d : EntryData) :
    fsFind (fsSet fs p d) p = some d := by
  simp [fsFind, fsSet, List.find?]

theorem find_fsErase_ne (fs : FS) (p q : Path) (h : q ≠ p) :
    (fsErase fs p).find? (fun e => decide (e.1 = q)) =
      fs.find? (fun e => decide (e.1 = q)) := by
  induction fs with
  | nil => rfl
  | cons a rest ih =>
    show (List.filter _ (a :: rest)).find? _ = _
    rw [List.filter_cons]
    by_cases hap : a.1 = p
    · have haq : ¬ (a.1 = q) := fun hq => h (hq.symm.trans hap)
      rw [if_neg (by simp [hap]), List.find?_cons_of_neg _ (by simp [haq])]
      exact ih
    · by_cases haq : a.1 = q
      · rw [if_pos (by simp [hap]), List.find?_cons_of_pos _ (by simp [haq]),
          List.find?_cons_of_pos _ (by simp [haq])]
      · rw [if_pos (by simp [hap]), List.find?_cons_of_neg _ (by simp [haq]),
          List.find?_cons_of_neg _ (by simp [haq])]
        exact ih

theorem fsFind_fsSet_ne (fs : FS) (p q : Path) (d : EntryData) (h : q ≠ p) :
    fsFind (fsSet fs p d) q = fsFind fs q := by
  unfold fsFind fsSet
  rw [List.find?_cons_of_neg _ (by simp; exact fun hh => h hh.symm)]
  rw [find_fsErase_ne fs p q h]

theorem fsFind_eq_none_iff (fs : FS) (p : Path) :
    fsFind fs p = none ↔ ∀ e ∈ fs, e.1 ≠ p := by
  unfold fsFind
  rw [Option.map_eq_none', List.find?_eq_none]
  simp only [decide_eq_true_eq]

theorem fsFind_filter_none (fs : FS) (keep : Path × EntryData → Bool) (p : Path)
    (h : fsFind fs p = none) : fsFind (fs.filter keep) p = none := by
  rw [fsFind_eq_none_iff] at h ⊢
  exact fun e he => h e (List.mem_filter.mp he).1

theorem fsFind_fsRmtree_under (fs : FS) (d q : Path) (h : d <+: q) :
    fsFind (fsRmtree fs d) q = none := by
  rw [fsFind_eq_none_iff]
  intro e he heq
  have := (List.mem_filter.mp he).2
  rw [heq] at this
  simp [h] at this

theorem fsErase_of_absent (fs : FS) (p : Path) (h : fsFind fs p = none) :
    fsErase fs p = fs := by
  rw [fsFind_eq_none_iff] at h
  exact List.filter_eq_self.mpr (fun e he => by simpa using h e he)

/-! ## String and path lemmas -/

theorem strAppend_cancel {t a b : String} (h : t ++ a = t ++ b) : a = b := by
  have h2 : t.data ++ a.data = t.data ++ b.data := congrArg String.data h
  have h3 : a.data = b.data := List.append_cancel_left h2
  cases a; cases b; exact congrArg String.mk h3

theorem strAppend_ne (t : String) {a b : String} (h : a ≠ b) : t ++ a ≠ t ++ b :=
  fun hh => h (strAppend_cancel hh)

theorem stemOf_append_wav (t : String) : stemOf (t ++ "_drums.wav") = t ++ "_drums" := by
  have hdata : (t ++ "_drums.wav").toList = t.data ++ "_drums.wav".data := rfl
  have hrev : (t.data ++ "_drums.wav".data).reverse
      = 'v' :: 'a' :: 'w' :: '.' :: ("_drums".data.reverse ++ t.data.reverse) := by
    rw [List.reverse_append]; rfl
  have htake : List.takeWhile (fun c => c != '.')
      ('v' :: 'a' :: 'w' :: '.' :: ("_drums".data.reverse ++ t.data.reverse))
      = ['v', 'a', 'w'] := rfl
  have hlen : (t.data ++ "_drums.wav".data).length = t.data.length + 10 := by
    simp
  have hl3 : (['v', 'a', 'w'] : List Char).length = 3 := rfl
  simp only [stemOf, hdata, hrev, htake, hlen, hl3]
  rw [if_pos (by omega)]
  have harith : t.data.length + 10 - 3 - 1 = t.data.length + 6 := by omega
  rw [harith]
  have harg : t.data.length + 6 - t.data.length = 6 := by omega
  rw [List.take_append_eq_append_take, List.take_of_length_le (by omega), harg]
  rfl

theorem outputChild_ne {a b : String} (h : a ≠ b) :
    (outputDir ++ [a] : Path) ≠ outputDir ++ [b] := by
  intro hh
  exact h (by simpa using List.append_cancel_left hh)

theorem outputChild_not_prefix {a b : String} (h : a ≠ b) :
    ¬ ((outputDir ++ [a] : Path) <+: outputDir ++ [b]) := by
  intro hh
  have hlen : (outputDir ++ [a] : Path).length = (outputDir ++ [b] : Path).length := by
    simp [outputDir]
  exact outputChild_ne h (hh.eq_of_length hlen)

theorem stemsTempDir_ne_folder (t s : String) :
    stemsTempDir t ≠ stemFolderPath t s := by
  intro hh
  have := congrArg List.length hh
  simp [stemsTempDir, stemFolderPath, outputDir] at this

theorem stemsTempDir_ne_source (t s : String) :
    stemsTempDir t ≠ drumSourcePath t s := by
  intro hh
  have := congrArg List.length hh
  simp [stemsTempDir, stemFolderPath, drumSourcePath, outputDir] at this

/-! ## Claim theorems -/

/-- C1 (counterexample): the claim says no operation ever moves a task's
status backwards from `complete`; but a second subscription to a task that is
already `complete` is accepted (only `processing` is guarded) and immediately
writes `processing` — a reversed transition. -/
theorem C1_counterexample :
    ¬ List.Chain forwardStep Status.complete
      (process_audio [] ⟨.complete, ["tmp", "drumextract", "uploads", "t1.wav"],
        none, none, none, none⟩ 0 "t1" (.raises "boom") (.runs none)).writes := by
  have hw : (process_audio [] ⟨.complete, ["tmp", "drumextract", "uploads", "t1.wav"],
      none, none, none, none⟩ 0 "t1" (.raises "boom") (.runs none)).writes
      = [Status.processing, Status.failed] := rfl
  rw [hw]
  intro h
  cases h with
  | cons h1 _ => exact (by decide : ¬ forwardStep Status.complete Status.processing) h1

/-- C1 (amended): every status write the subscription/processing endpoint
performs is either a forward move along pending → processing → {complete |
failed}, or one of the two deviations the code actually contains: a
subscription to any non-`processing` task (also a `complete` or `failed` one)
re-sets it to `processing`, and a task just marked `complete` whose terminal
frame cannot be delivered is re-marked `failed`. The read-only endpoints
(`get_status`, `download_midi`) are embedded as pure functions and write
nothing; `upload_audio` only creates `pending` records; cancellation only
deletes records. -/
theorem C1_status_writes_amended (fs : FS) (rec : TaskRecord) (cap : Nat)
    (t : String) (sep : SepOutcome) (midi : MidiOutcome) :
    List.Chain stepAmended rec.status (process_audio fs rec cap t sep midi).writes := by
  unfold process_audio
  by_cases h : rec.status = .processing
  · simp [h]
  · rw [if_neg h]
    repeat' split
    all_goals
      first
      | exact List.Chain.cons (Or.inl ⟨rfl, h⟩) (.cons (by decide) .nil)
      | exact List.Chain.cons (Or.inl ⟨rfl, h⟩) (.cons (by decide) (.cons (by decide) .nil))

/-- C4 (counterexample): the claim says a retention-sweep entry is deleted if
and only if it is older than the threshold; but a directory whose mtime
equals `now` (one hour younger than the cutoff requires) is deleted anyway,
because the directory branch never consults the mtime. -/
theorem C4_counterexample :
    cleanup_old_files 10000 [] [⟨.edir, 10000, 3⟩] = .ok [true] := by
  decide

/-- C4 (amended): for an entry the sweep can fully access, a file is deleted
iff its mtime is strictly older than the cutoff, while a directory is deleted
unconditionally, whatever its mtime. -/
theorem C4_sweep_amended (c m : Int) (k : Nat) :
    sweepEntry c ⟨.efile, m, k + 3⟩ = .ok (decide (m < c)) ∧
      sweepEntry c ⟨.edir, m, k + 3⟩ = .ok true := by
  constructor
  · by_cases h : m < c <;>
      simp [sweepEntry, h, Nat.lt_irrefl, show ¬ (k + 3 ≤ 1) by omega,
        show ¬ (k + 3 ≤ 2) by omega]
  · simp [sweepEntry, show (1 : Nat) < k + 3 by omega, show (2 : Nat) < k + 3 by omega]

/-- C9 (counterexample): the claim says the sweep tolerates an entry deleted
concurrently; but a file listed by `iterdir` whose entry vanishes before the
`unlink` call makes the sweep raise (`unlink` has no missing-ok), aborting
the whole iteration. -/
theorem C9_counterexample :
    cleanup_old_files 10000 [⟨.efile, 0, 2⟩] [] = .error "FileNotFoundError" := by
  decide

/-- C9 (amended): only the directory branch of the sweep has delete-if-exists
semantics (its `rmtree` failure is swallowed, and the loop continues); the
file branch does not — a file that vanishes after listing makes `stat` or
`unlink` raise and the sweep iteration terminate. -/
theorem C9_sweep_tolerance_amended (c m : Int) :
    (∀ k, ∃ d, sweepEntry c ⟨.edir, m, k⟩ = .ok d) ∧
      sweepEntry c ⟨.efile, m, 1⟩ = .error fileGoneMsg ∧
      sweepEntry c ⟨.efile, m, 2⟩ =
        (if m < c then .error fileGoneMsg else .ok false) := by
  refine ⟨fun k => ?_, by simp [sweepEntry], ?_⟩
  · by_cases h : 1 < k <;> simp [sweepEntry, h]
  · by_cases h : m < c <;> simp [sweepEntry, h]

/-- C5 (confirmed): a subscription to a task whose status is `processing` is
rejected with a conflict frame; the registry record, the filesystem and the
pipeline are untouched (no event is pulled from the generator), so the first
subscription's progress delivery is unaffected. -/
theorem C5_second_subscription_conflict (fs : FS) (up : Path)
    (pr : Option ProgressEvent) (mp dp : Option Path) (err : Option String)
    (cap : Nat) (t : String) (sep : SepOutcome) (midi : MidiOutcome) :
    process_audio fs ⟨.processing, up, pr, mp, dp, err⟩ cap t sep midi =
      ⟨fs, ⟨.processing, up, pr, mp, dp, err⟩, [], 0, [.conflict]⟩ := rfl

/-- C3 (counterexample): the claim says the separation scratch directory is
deleted on every failure path; but when Spleeter runs and produces no
`drums.wav`, the stage raises with the scratch directory still present. -/
theorem C3_counterexample :
    (separate_drums [] "t1" ["tmp", "drumextract", "uploads", "t1.wav"]
        (.runs none)).2 =
      .error ("Spleeter did not generate drums.wav at /tmp/drumextract/outputs/t1_stems/t1/drums.wav") ∧
    fsFind (separate_drums [] "t1" ["tmp", "drumextract", "uploads", "t1.wav"]
        (.runs none)).1 (stemsTempDir "t1") = some .dir := by
  constructor <;> decide

/-- C3 (amended): the separation stage deletes its scratch directory on the
success path only; on every failure path (the collaborator raising, or the
collaborator producing no drums output) the scratch directory is left
behind. -/
theorem C3_scratch_dir_amended (fs : FS) (t : String) (p : Path) (oc : SepOutcome) :
    (∀ fs2 fin, separate_drums fs t p oc = (fs2, .ok fin) →
      fsFind fs2 (stemsTempDir t) = none) ∧
    (∀ fs2 msg, separate_drums fs t p oc = (fs2, .error msg) →
      fsFind fs2 (stemsTempDir t) = some .dir) := by
  cases oc with
  | raises msg =>
    constructor
    · intro fs2 fin h
      simp [separate_drums] at h
    · intro fs2 msg2 h
      simp only [separate_drums, Prod.mk.injEq] at h
      rw [← h.1, fsFind_fsSet_self]
  | runs drums =>
    cases drums with
    | none =>
      constructor
      · intro fs2 fin h
        simp only [separate_drums] at h
        rcases hfind : fsFind (fsSet (fsSet fs (stemsTempDir t) .dir)
            (stemFolderPath t (stemOf (lastComp p))) .dir)
            (drumSourcePath t (stemOf (lastComp p))) with _ | d
        · rw [hfind] at h; simp at h
        · rw [hfind] at h
          simp only [Prod.mk.injEq] at h
          rw [← h.1]
          exact fsFind_fsRmtree_under _ _ _ (List.prefix_refl _)
      · intro fs2 msg h
        simp only [separate_drums] at h
        rcases hfind : fsFind (fsSet (fsSet fs (stemsTempDir t) .dir)
            (stemFolderPath t (stemOf (lastComp p))) .dir)
            (drumSourcePath t (stemOf (lastComp p))) with _ | d
        · rw [hfind] at h
          simp only [Prod.mk.injEq] at h
          rw [← h.1]
          rw [fsFind_fsSet_ne _ _ _ _ (stemsTempDir_ne_folder t _), fsFind_fsSet_self]
        · rw [hfind] at h; simp at h
    | some d =>
      constructor
      · intro fs2 fin h
        simp only [separate_drums] at h
        rcases hfind : fsFind (fsSet (fsSet (fsSet fs (stemsTempDir t) .dir)
            (stemFolderPath t (stemOf (lastComp p))) .dir)
            (drumSourcePath t (stemOf (lastComp p))) (.file d.1 d.2))
            (drumSourcePath t (stemOf (lastComp p))) with _ | dd
        · rw [hfind] at h; simp at h
        · rw [hfind] at h
          simp only [Prod.mk.injEq] at h
          rw [← h.1]
          exact fsFind_fsRmtree_under _ _ _ (List.prefix_refl _)
      · intro fs2 msg h
        simp only [separate_drums] at h
        rcases hfind : fsFind (fsSet (fsSet (fsSet fs (stemsTempDir t) .dir)
            (stemFolderPath t (stemOf (lastComp p))) .dir)
            (drumSourcePath t (stemOf (lastComp p))) (.file d.1 d.2))
            (drumSourcePath t (stemOf (lastComp p))) with _ | dd
        · rw [hfind] at h
          simp only [Prod.mk.injEq] at h
          rw [← h.1]
          rw [fsFind_fsSet_ne _ _ _ _ (stemsTempDir_ne_source t _),
            fsFind_fsSet_ne _ _ _ _ (stemsTempDir_ne_folder t _), fsFind_fsSet_self]
        · rw [hfind] at h; simp at h

/-- C6 (confirmed): whatever the collaborators do, the sequence of progress
events a pipeline run yields is non-decreasing in stage order, has
non-decreasing percent within each stage, emits a 0% event on entry of each
entered processing stage, and a 100% event with a stage-specific message on
exit of each stage that succeeded. -/
theorem C6_progress_trace (fs : FS) (t : String) (p : Path) (sep : SepOutcome)
    (midi : MidiOutcome) :
    traceOk (pipelineProcess fs t p sep midi).events = true := by
  unfold pipelineProcess
  rcases h1 : separate_drums fs t p sep with ⟨fs1, r1⟩
  rcases r1 with msg | drum
  · exact (by decide : traceOk [sepEntryEv] = true)
  · dsimp only
    rcases h2 : convert_to_midi fs1 t drum midi with ⟨fs2, r2⟩
    rcases r2 with msg | midiP
    · exact (by decide : traceOk [sepEntryEv, sepExitEv, midiEntryEv] = true)
    · dsimp only
      rcases h3 : validate_outputs fs2 drum midiP with msg | u
      · exact (by decide :
          traceOk [sepEntryEv, sepExitEv, midiEntryEv, midiExitEv, valEntryEv] = true)
      · exact (by decide :
          traceOk [sepEntryEv, sepExitEv, midiEntryEv, midiExitEv, valEntryEv, valExitEv,
            completeEv] = true)

/-- Validation agrees pointwise with the claim's ordered check list: helper
equation for C7. -/
theorem validate_eq_spec (fs : FS) (d m : Path)
    (hd : fileOrAbsent fs d = true) (hm : fileOrAbsent fs m = true) :
    validate_outputs fs d m =
      (match firstFailingCheckSpec fs d m with
       | none => .ok ()
       | some c => .error (checkReason c ++ pathStr (checkTargetPath c d m))) := by
  unfold fileOrAbsent at hd hm
  unfold validate_outputs firstFailingCheckSpec
  rcases h1 : fsFind fs d with _ | dd
  · rfl
  · rw [h1] at hd
    rcases dd with _ | ⟨n, hb⟩
    · simp at hd
    · dsimp only [entrySize]
      by_cases hn : n < 1000
      · rw [if_pos hn, if_pos hn]
        rfl
      · rw [if_neg hn, if_neg hn]
        rcases h2 : fsFind fs m with _ | md
        · rfl
        · rw [h2] at hm
          rcases md with _ | ⟨n2, hb2⟩
          · simp at hm
          · dsimp only [entrySize, readHead4]
            by_cases hn2 : n2 < 100
            · rw [if_pos hn2, if_pos hn2]
              rfl
            · rw [if_neg hn2, if_neg hn2]
              by_cases hmagic : hb2.take 4 ≠ MThd
              · rw [if_pos hmagic, if_pos hmagic]
                rfl
              · rw [if_neg hmagic, if_neg hmagic]

/-- C7 (confirmed): on file (or absent) entries, validation performs exactly
the claim's checks in the claim's order — it returns normally iff no check of
the ordered list fails, and otherwise raises at the first failing check with
an error naming the offending file and the reason. -/
theorem C7_validation_checks (fs : FS) (d m : Path)
    (hd : fileOrAbsent fs d = true) (hm : fileOrAbsent fs m = true) :
    (validate_outputs fs d m = .ok () ↔ firstFailingCheckSpec fs d m = none) ∧
    (∀ c, firstFailingCheckSpec fs d m = some c →
      validate_outputs fs d m =
        .error (checkReason c ++ pathStr (checkTargetPath c d m))) := by
  rw [validate_eq_spec fs d m hd hm]
  constructor
  · rcases h : firstFailingCheckSpec fs d m with _ | c <;> simp
  · intro c hc
    rw [hc]

/-- C7 witness: on an empty store both artifacts are missing, and validation
fails at the first check of the list, naming the separated-audio file. -/
theorem C7_validation_checks_witness :
    validate_outputs [] ["x", "d.wav"] ["x", "m.mid"] =
      .error ("Drum audio not found: " ++ pathStr ["x", "d.wav"]) :=
  (C7_validation_checks [] ["x", "d.wav"] ["x", "m.mid"] (by decide) (by decide)).2
    .drumMissing (by decide)

/-- C2 (counterexample): the claim says a mid-run client disconnect leaves
the pipeline running to its own terminal state; but with collaborators that
would make the run succeed (the eagerly-consumed pipeline ends with no
error), a client that accepts only one frame makes the task end `failed`,
not `complete`. -/
theorem C2_counterexample :
    (pipelineProcess [] "t2" ["tmp", "drumextract", "uploads", "t2.wav"]
      (.runs (some (2000, [1]))) (.runs (some (200, [77, 84, 104, 100])))).err = none ∧
    (process_audio []
      ⟨.pending, ["tmp", "drumextract", "uploads", "t2.wav"], none, none, none, none⟩
      1 "t2" (.runs (some (2000, [1])))
      (.runs (some (200, [77, 84, 104, 100])))).task.status = .failed := by
  constructor <;> decide

/-- C2 (amended): if delivering a progress event fails (the client accepts
fewer frames than the pipeline yields), the exception aborts the iteration:
the task transitions to `failed` with the delivery error recorded, and the
generator is closed after the event whose send failed — the remaining stages
never run, rather than continuing in the background. -/
theorem C2_disconnect_aborts_run (fs : FS) (rec : TaskRecord) (cap : Nat) (t : String)
    (sep : SepOutcome) (midi : MidiOutcome)
    (hrun : rec.status ≠ .processing)
    (hcap : cap < (pipelineProcess fs t rec.upload_path sep midi).events.length) :
    (process_audio fs rec cap t sep midi).task.status = .failed ∧
    (process_audio fs rec cap t sep midi).task.error = some disconnectMsg ∧
    (process_audio fs rec cap t sep midi).consumed = cap + 1 := by
  unfold pipelineProcess at hcap
  unfold process_audio
  rw [if_neg hrun]
  by_cases hc1 : cap < 1
  · rw [if_pos hc1]
    exact ⟨rfl, rfl, by dsimp only [failRun]; omega⟩
  · rw [if_neg hc1]
    rcases h1 : separate_drums fs t rec.upload_path sep with ⟨fs1, r1⟩
    rw [h1] at hcap
    rcases r1 with msg | drum
    · exact absurd (by simpa using hcap) hc1
    · dsimp only at hcap ⊢
      by_cases hc2 : cap < 2
      · rw [if_pos hc2]
        exact ⟨rfl, rfl, by dsimp only [failRun]; omega⟩
      · rw [if_neg hc2]
        by_cases hc3 : cap < 3
        · rw [if_pos hc3]
          exact ⟨rfl, rfl, by dsimp only [failRun]; omega⟩
        · rw [if_neg hc3]
          rcases h2 : convert_to_midi fs1 t drum midi with ⟨fs2, r2⟩
          rw [h2] at hcap
          rcases r2 with msg | midiP
          · exact absurd (by simpa using hcap) hc3
          · dsimp only at hcap ⊢
            by_cases hc4 : cap < 4
            · rw [if_pos hc4]
              exact ⟨rfl, rfl, by dsimp only [failRun]; omega⟩
            · rw [if_neg hc4]
              by_cases hc5 : cap < 5
              · rw [if_pos hc5]
                exact ⟨rfl, rfl, by dsimp only [failRun]; omega⟩
              · rw [if_neg hc5]
                rcases h3 : validate_outputs fs2 drum midiP with msg | u
                · rw [h3] at hcap
                  exact absurd (by simpa using hcap) hc5
                · rw [h3] at hcap
                  dsimp only at hcap ⊢
                  by_cases hc6 : cap < 6
                  · rw [if_pos hc6]
                    exact ⟨rfl, rfl, by dsimp only [failRun]; omega⟩
                  · rw [if_neg hc6]
                    by_cases hc7 : cap < 7
                    · rw [if_pos hc7]
                      exact ⟨rfl, rfl, by dsimp only [failRun]; omega⟩
                    · exact absurd (by simpa using hcap) hc7

/-- C2 witness: a pending task whose client accepts no frame at all ends
`failed` with the delivery error, after a single event was pulled. -/
theorem C2_disconnect_aborts_run_witness :
    (process_audio [] ⟨.pending, ["tmp", "drumextract", "uploads", "w2.wav"],
        none, none, none, none⟩ 0 "w2" (.raises "x") (.runs none)).task.status = .failed ∧
    (process_audio [] ⟨.pending, ["tmp", "drumextract", "uploads", "w2.wav"],
        none, none, none, none⟩ 0 "w2" (.raises "x") (.runs none)).task.error
      = some disconnectMsg ∧
    (process_audio [] ⟨.pending, ["tmp", "drumextract", "uploads", "w2.wav"],
        none, none, none, none⟩ 0 "w2" (.raises "x") (.runs none)).consumed = 0 + 1 :=
  C2_disconnect_aborts_run [] ⟨.pending, ["tmp", "drumextract", "uploads", "w2.wav"],
    none, none, none, none⟩ 0 "w2" (.raises "x") (.runs none)
    (by decide) (by decide)

theorem fsFind_fsErase_ne (fs : FS) (p q : Path) (h : q ≠ p) :
    fsFind (fsErase fs p) q = fsFind fs q := by
  unfold fsFind
  rw [find_fsErase_ne fs p q h]

theorem fsFind_fsRmtree_none (fs : FS) (d q : Path) (h : fsFind fs q = none) :
    fsFind (fsRmtree fs d) q = none :=
  fsFind_filter_none fs _ q h

theorem fsFind_fsRmtree_head (rest : FS) (d q : Path) (dd : EntryData)
    (h : ¬ d <+: q) :
    fsFind (fsRmtree ((q, dd) :: rest) d) q = some dd := by
  unfold fsRmtree
  rw [List.filter_cons, if_pos (by simpa using h)]
  unfold fsFind
  rw [List.find?_cons_of_pos _ (by simp)]
  rfl

theorem outputChild_ne_folder (x t s : String) :
    (outputDir ++ [x] : Path) ≠ stemFolderPath t s := by
  intro hh
  have := congrArg List.length hh
  simp [stemFolderPath, stemsTempDir, outputDir] at this

theorem outputChild_ne_source (x t s : String) :
    (outputDir ++ [x] : Path) ≠ drumSourcePath t s := by
  intro hh
  have := congrArg List.length hh
  simp [drumSourcePath, stemFolderPath, stemsTempDir, outputDir] at this

theorem separate_drums_runs_some (fs : FS) (t : String) (p : Path) (sz : Nat)
    (hd : List UInt8) :
    separate_drums fs t p (.runs (some (sz, hd))) =
      (fsRmtree (fsSet (fsErase (fsSet (fsSet (fsSet fs (stemsTempDir t) .dir)
            (stemFolderPath t (stemOf (lastComp p))) .dir)
            (drumSourcePath t (stemOf (lastComp p))) (.file sz hd))
            (drumSourcePath t (stemOf (lastComp p))))
          (drumFinalPath t) (.file sz hd)) (stemsTempDir t),
        .ok (drumFinalPath t)) := by
  simp only [separate_drums]
  rw [fsFind_fsSet_self]

theorem stem_gen_path (t : String) :
    stemOf (lastComp (drumFinalPath t)) ++ "_basic_pitch.mid"
      = t ++ "_drums_basic_pitch.mid" := by
  have h1 : lastComp (drumFinalPath t) = t ++ "_drums.wav" := rfl
  rw [h1, stemOf_append_wav, String.append_assoc]
  rfl

/-- C8 (confirmed): when the separation collaborator produces a drum stem but
the transcription collaborator runs and produces no discoverable MIDI file
(none on disk at the generated path), the task ends `failed` with an error
naming the missing path, and the separated audio is still present at its
normalized task-scoped path with its content intact. The client stays
connected (`cap = k + 3` covers the three frames sent before the failure). -/
theorem C8_missing_midi_output (fs : FS) (t : String) (k sz : Nat) (hb : List UInt8)
    (up : Path) (pr : Option ProgressEvent)
    (hclean : fsFind fs (outputDir ++ [t ++ "_drums_basic_pitch.mid"]) = none) :
    (process_audio fs ⟨.pending, up, pr, none, none, none⟩ (k + 3) t
        (.runs (some (sz, hb))) (.runs none)).task.status = .failed ∧
    (process_audio fs ⟨.pending, up, pr, none, none, none⟩ (k + 3) t
        (.runs (some (sz, hb))) (.runs none)).task.error =
      some ("Basic-Pitch did not generate MIDI at " ++
        pathStr (outputDir ++ [t ++ "_drums_basic_pitch.mid"])) ∧
    fsFind ((process_audio fs ⟨.pending, up, pr, none, none, none⟩ (k + 3) t
        (.runs (some (sz, hb))) (.runs none)).fs) (drumFinalPath t)
      = some (.file sz hb) := by
  have hgen : stemOf (lastComp (drumFinalPath t)) ++ "_basic_pitch.mid"
      = t ++ "_drums_basic_pitch.mid" := stem_gen_path t
  unfold process_audio
  rw [if_neg (fun hh => Status.noConfusion hh)]
  rw [if_neg (by omega : ¬ k + 3 < 1)]
  dsimp only
  rw [separate_drums_runs_some]
  dsimp only
  rw [if_neg (by omega : ¬ k + 3 < 2), if_neg (by omega : ¬ k + 3 < 3)]
  -- name the filesystem after separation
  set fsE := fsRmtree (fsSet (fsErase (fsSet (fsSet (fsSet fs (stemsTempDir t) .dir)
      (stemFolderPath t (stemOf (lastComp up))) .dir)
      (drumSourcePath t (stemOf (lastComp up))) (.file sz hb))
      (drumSourcePath t (stemOf (lastComp up))))
    (drumFinalPath t) (.file sz hb)) (stemsTempDir t) with hfsE
  -- the generated MIDI path is absent in fsE
  have hgenE : fsFind fsE (outputDir ++ [stemOf (lastComp (drumFinalPath t))
      ++ "_basic_pitch.mid"]) = none := by
    rw [hgen, hfsE]
    apply fsFind_fsRmtree_none
    rw [fsFind_fsSet_ne _ _ _ _ (show (outputDir ++ [t ++ "_drums_basic_pitch.mid"] : Path)
      ≠ drumFinalPath t from outputChild_ne
      (strAppend_ne t (by decide : "_drums_basic_pitch.mid" ≠ "_drums.wav")))]
    rw [fsFind_fsErase_ne _ _ _ (outputChild_ne_source _ t _)]
    rw [fsFind_fsSet_ne _ _ _ _ (outputChild_ne_source _ t _)]
    rw [fsFind_fsSet_ne _ _ _ _ (outputChild_ne_folder _ t _)]
    rw [fsFind_fsSet_ne _ _ _ _ (show (outputDir ++ [t ++ "_drums_basic_pitch.mid"] : Path)
      ≠ stemsTempDir t from outputChild_ne
      (strAppend_ne t (by decide : "_drums_basic_pitch.mid" ≠ "_stems")))]
    exact hclean
  -- hence the conversion stage fails with the missing-output error
  have hconv : convert_to_midi fsE t (drumFinalPath t) (.runs none) =
      (fsE, .error ("Basic-Pitch did not generate MIDI at "
        ++ pathStr (outputDir ++ [stemOf (lastComp (drumFinalPath t))
          ++ "_basic_pitch.mid"]))) := by
    simp only [convert_to_midi]
    rw [hgenE]
  rw [hconv]
  dsimp only [failRun]
  refine ⟨rfl, by rw [hgen], ?_⟩
  rw [hfsE]
  exact fsFind_fsRmtree_head _ _ _ _ (show ¬ stemsTempDir t <+: drumFinalPath t
    from outputChild_not_prefix
      (strAppend_ne t (by decide : "_stems" ≠ "_drums.wav")))

/-- C8 witness: concrete run of the missing-MIDI scenario. -/
theorem C8_missing_midi_output_witness :
    (process_audio [] ⟨.pending, ["a.wav"], none, none, none, none⟩ (0 + 3) "w8"
        (.runs (some (2000, [1]))) (.runs none)).task.status = .failed ∧
    (process_audio [] ⟨.pending, ["a.wav"], none, none, none, none⟩ (0 + 3) "w8"
        (.runs (some (2000, [1]))) (.runs none)).task.error =
      some ("Basic-Pitch did not generate MIDI at " ++
        pathStr (outputDir ++ ["w8" ++ "_drums_basic_pitch.mid"])) ∧
    fsFind ((process_audio [] ⟨.pending, ["a.wav"], none, none, none, none⟩ (0 + 3) "w8"
        (.runs (some (2000, [1]))) (.runs none)).fs) (drumFinalPath "w8")
      = some (.file 2000 [1]) :=
  C8_missing_midi_output [] "w8" 0 2000 [1] ["a.wav"] none (by decide)

/-- C10 (confirmed): upload handling is atomic with respect to failure. On a
fresh task id and a fresh upload path (as UUID generation provides), every
request that ends in an error — bad extension, a raising read, an oversize
payload, or a failing write with or without an incomplete file left behind —
leaves the filesystem and the registry exactly as they were: no upload file
on disk and no task record. A record exists after upload iff the upload
succeeded, and then its status is `pending` and the upload file is on disk. -/
theorem regFind_regSet_self (reg : Registry) (id : String) (rec : TaskRecord) :
    regFind (regSet reg id rec) id = some rec := by
  simp [regFind, regSet, List.find?]

theorem fsErase_fsSet_self (fs : FS) (p : Path) (d : EntryData) :
    fsErase (fsSet fs p d) p = fsErase fs p := by
  show List.filter _ ((p, d) :: _) = _
  rw [List.filter_cons, if_neg (by simp)]
  exact List.filter_eq_self.mpr (fun e he => (List.mem_filter.mp he).2)

theorem C10_upload_atomic (fs : FS) (reg : Registry) (fn t : String)
    (rd : ReadOutcome) (wr : WriteOutcome)
    (hpath : fsFind fs (uploadDir ++ [t ++ lowerStr (suffixOf fn)]) = none)
    (hid : regFind reg t = none) :
    ((∃ e, (upload_audio fs reg fn t rd wr).result = .error e) →
      (upload_audio fs reg fn t rd wr).fs = fs ∧
      (upload_audio fs reg fn t rd wr).reg = reg ∧
      fsFind (upload_audio fs reg fn t rd wr).fs
        (uploadDir ++ [t ++ lowerStr (suffixOf fn)]) = none ∧
      regFind (upload_audio fs reg fn t rd wr).reg t = none) ∧
    (∀ s, (upload_audio fs reg fn t rd wr).result = .ok s →
      regFind (upload_audio fs reg fn t rd wr).reg t =
        some ⟨.pending, uploadDir ++ [t ++ lowerStr (suffixOf fn)], none, none, none, none⟩ ∧
      ∃ sz bs, fsFind (upload_audio fs reg fn t rd wr).fs
        (uploadDir ++ [t ++ lowerStr (suffixOf fn)]) = some (.file sz bs)) := by
  unfold upload_audio
  by_cases hmem : lowerStr (suffixOf fn) ∈ allowedExtensions
  · rw [if_neg (fun hh => hh hmem)]
    cases rd with
    | raises msg =>
      dsimp only
      rw [fsErase_of_absent fs _ hpath]
      exact ⟨fun _ => ⟨rfl, rfl, hpath, hid⟩, fun s hok => absurd hok (by simp)⟩
    | reads sz bytes =>
      dsimp only
      by_cases hsz : maxFileSize < sz
      · rw [if_pos hsz]
        rw [fsErase_of_absent fs _ hpath]
        exact ⟨fun _ => ⟨rfl, rfl, hpath, hid⟩, fun s hok => absurd hok (by simp)⟩
      · rw [if_neg hsz]
        cases wr with
        | raises leftover msg =>
          dsimp only
          cases leftover with
          | true =>
            rw [if_pos rfl]
            rw [fsErase_fsSet_self, fsErase_of_absent fs _ hpath]
            exact ⟨fun _ => ⟨rfl, rfl, hpath, hid⟩, fun s hok => absurd hok (by simp)⟩
          | false =>
            rw [if_neg (by simp)]
            rw [fsErase_of_absent fs _ hpath]
            exact ⟨fun _ => ⟨rfl, rfl, hpath, hid⟩, fun s hok => absurd hok (by simp)⟩
        | writes =>
          dsimp only
          refine ⟨fun he => absurd he (by simp), fun s hok => ?_⟩
          exact ⟨regFind_regSet_self reg t _, sz, bytes, fsFind_fsSet_self fs _ _⟩
  · rw [if_pos hmem]
    exact ⟨fun _ => ⟨rfl, rfl, hpath, hid⟩, fun s hok => absurd hok (by simp)⟩

/-- C10 witness: a concrete successful upload registers a pending record and
leaves the file on disk. -/
theorem C10_upload_atomic_witness :
    regFind (upload_audio [] [] "song.wav" "w10" (.reads 5 [1, 2]) .writes).reg "w10" =
      some ⟨.pending, uploadDir ++ ["w10" ++ lowerStr (suffixOf "song.wav")],
        none, none, none, none⟩ ∧
    ∃ sz bs, fsFind (upload_audio [] [] "song.wav" "w10" (.reads 5 [1, 2]) .writes).fs
      (uploadDir ++ ["w10" ++ lowerStr (suffixOf "song.wav")]) = some (.file sz bs) :=
  (C10_upload_atomic [] [] "song.wav" "w10" (.reads 5 [1, 2]) .writes
      (by decide) (by decide)).2
    ("File uploaded successfully. Connect to /ws/process/" ++ "w10") (by decide)

end DrumExtract
